import Mathlib

/-!
Verification of the frame-diff engine of the TerminalRenderer repository.

The whole substantive logic of the repository is the single routine
`compute_diff_buffer(self_buffer, other_buffer, term_width, term_height,
color_threshold=0.05, render_outside_bounds=False)` in `src/diff_buffer.pyx`.
The routine compares two frame buffers (lists of rows, each row a list of
optional pixels) and returns a list of `((x, y), pixel)` update entries.

In the code, `self_buffer` is the *current* frame (its pixels are the payload
of the update entries, and its absence at an updated position yields the
synthetic blank "erase" pixel), while `other_buffer` is the *previous* frame.

Embedding choices:
- RGB channels are rationals (`ℚ`), so the arithmetic of the code
  (`(r1-r2)**2 + ... >= threshold**2`) is exact and decidable.
- `term_width`, `term_height` are integers (`ℤ`), since the code accepts,
  and the claims discuss, negative values.
- A row element is `Option Pixel`: the code treats a stored `None` and an
  out-of-range index identically (absent).
- The three nested constructs of the code (the per-cell body, the per-row
  loop, the outer loop) are factored into `diff_cell`, `diff_row`,
  `compute_diff_buffer`; `flatten`/`map` over `List.range` renders the loops
  with their `continue`-guards as `if` branches producing `[]`.
-/

/-- An RGB color; the code reads it through `color.to_tuple_rgb()`. -/
structure Color where
  r : ℚ
  g : ℚ
  b : ℚ
deriving DecidableEq, Repr

/-- A zero-based (x = column, y = row) position, as in `data.Position`. -/
structure Position where
  x : ℕ
  y : ℕ
deriving DecidableEq, Repr

/-- A cell: character glyph, color and stored position, as in `data.Pixel`. -/
structure Pixel where
  char : Char
  color : Color
  pos : Position
deriving DecidableEq, Repr

/-- One buffer row: an ordered sequence of optional pixels. -/
abbrev Row : Type := List (Option Pixel)

/-- A frame buffer: an ordered sequence of rows (possibly jagged). -/
abbrev FrameBuffer : Type := List Row

/-- `(r1 - r2)**2 + (g1 - g2)**2 + (b1 - b2)**2` — lines 33–35 of
`src/diff_buffer.pyx`. -/
def distance_squared (c1 c2 : Color) : ℚ :=
  (c1.r - c2.r) ^ 2 + (c1.g - c2.g) ^ 2 + (c1.b - c2.b) ^ 2

/-- The `needs_update` decision, lines 25–37 of `src/diff_buffer.pyx`:
exactly one pixel absent → update; both present → update iff the characters
differ or the squared color distance reaches `threshold_squared`; both
absent → no update. -/
def needs_update_at (self_pixel other_pixel : Option Pixel)
    (threshold_squared : ℚ) : Bool :=
  match self_pixel, other_pixel with
  | none, none => false
  | some _, none => true
  | none, some _ => true
  | some sp, some op =>
    if sp.char ≠ op.char then true
    else decide (threshold_squared ≤ distance_squared sp.color op.color)

/-- `Pixel(' ', Color(0, 0, 0), Position(x, y))` — line 41 of
`src/diff_buffer.pyx`: the synthetic blank (erase) pixel. -/
def blank_pixel (x y : ℕ) : Pixel :=
  { char := ' ', color := { r := 0, g := 0, b := 0 }, pos := { x := x, y := y } }

/-- The body of the inner `for x` loop, lines 19–42 of `src/diff_buffer.pyx`:
skip when `x >= term_width and not render_outside_bounds`; otherwise fetch the
two guarded pixels, and when `needs_update` holds append the current frame's
pixel if present, else the synthetic blank at `(x, y)`. -/
def diff_cell (self_row other_row : Row) (y : ℕ) (term_width : ℤ)
    (threshold_squared : ℚ) (render_outside_bounds : Bool) (x : ℕ) :
    List ((ℕ × ℕ) × Pixel) :=
  if (x : ℤ) ≥ term_width ∧ render_outside_bounds = false then []
  else
    let self_pixel := self_row.getD x none
    let other_pixel := other_row.getD x none
    if needs_update_at self_pixel other_pixel threshold_squared then
      [((x, y), self_pixel.getD (blank_pixel x y))]
    else []

/-- The body of the outer `for y` loop, lines 11–42 of `src/diff_buffer.pyx`:
skip when `y >= term_height and not render_outside_bounds`; otherwise take
each buffer's row `y` (or `[]` beyond its row count) and scan columns up to
the maximum of the two row lengths. -/
def diff_row (self_buffer other_buffer : FrameBuffer)
    (term_width term_height : ℤ) (threshold_squared : ℚ)
    (render_outside_bounds : Bool) (y : ℕ) : List ((ℕ × ℕ) × Pixel) :=
  if (y : ℤ) ≥ term_height ∧ render_outside_bounds = false then []
  else
    let self_row := self_buffer.getD y []
    let other_row := other_buffer.getD y []
    ((List.range (max self_row.length other_row.length)).map
      (diff_cell self_row other_row y term_width threshold_squared
        render_outside_bounds)).flatten

/-- `compute_diff_buffer` of `src/diff_buffer.pyx`: squares the tolerance
once (line 7) and scans rows `0 ≤ y < max(len(self_buffer), len(other_buffer))`
(lines 8–10), appending updates in row-major scan order. The code's default
arguments are `color_threshold = 0.05`, `render_outside_bounds = False`. -/
def compute_diff_buffer (self_buffer other_buffer : FrameBuffer)
    (term_width term_height : ℤ) (color_threshold : ℚ)
    (render_outside_bounds : Bool) : List ((ℕ × ℕ) × Pixel) :=
  ((List.range (max self_buffer.length other_buffer.length)).map
    (diff_row self_buffer other_buffer term_width term_height
      (color_threshold * color_threshold) render_outside_bounds)).flatten

/-- The guarded pixel fetch, lines 22–23 of `src/diff_buffer.pyx`:
`row[x] if x < len(row) else None`, with row `y` itself defaulting to `[]`
beyond the buffer's row count (lines 14–15). -/
def pixel_at (buf : FrameBuffer) (x y : ℕ) : Option Pixel :=
  (buf.getD y []).getD x none

/-- The red cell of the spec's §8 concrete scenarios (0–1 channel scale). -/
def redP : Pixel := { char := 'A', color := { r := 1, g := 0, b := 0 }, pos := { x := 0, y := 0 } }

/-- The blue cell of the spec's §8 concrete scenarios (0–1 channel scale). -/
def blueP : Pixel := { char := 'A', color := { r := 0, g := 0, b := 1 }, pos := { x := 0, y := 0 } }

-- Membership characterizations for the three layers.

theorem mem_diff_cell (sr tr : Row) (y : ℕ) (w : ℤ) (t2 : ℚ) (b : Bool)
    (x : ℕ) (z : (ℕ × ℕ) × Pixel) :
    z ∈ diff_cell sr tr y w t2 b x ↔
      ((x : ℤ) < w ∨ b = true) ∧
      needs_update_at (sr.getD x none) (tr.getD x none) t2 = true ∧
      z = ((x, y), (sr.getD x none).getD (blank_pixel x y)) := by
  unfold diff_cell
  cases b with
  | false =>
    by_cases hx : (x : ℤ) < w
    · rw [if_neg (by simp [not_le.mpr hx])]
      by_cases hn : needs_update_at (sr.getD x none) (tr.getD x none) t2 = true
      · rw [if_pos hn, List.mem_singleton]
        exact ⟨fun hz => ⟨Or.inl hx, hn, hz⟩, fun hz => hz.2.2⟩
      · rw [if_neg hn]
        simp only [List.not_mem_nil, false_iff]
        rintro ⟨-, hn2, -⟩
        exact hn hn2
    · rw [if_pos (by simp [not_lt.mp hx])]
      simp only [List.not_mem_nil, false_iff]
      rintro ⟨hor, -, -⟩
      rcases hor with h | h
      · exact hx h
      · exact Bool.noConfusion h
  | true =>
    rw [if_neg (by simp)]
    by_cases hn : needs_update_at (sr.getD x none) (tr.getD x none) t2 = true
    · rw [if_pos hn, List.mem_singleton]
      exact ⟨fun hz => ⟨Or.inr (by trivial), hn, hz⟩, fun hz => hz.2.2⟩
    · rw [if_neg hn]
      simp only [List.not_mem_nil, false_iff]
      rintro ⟨-, hn2, -⟩
      exact hn hn2

theorem mem_diff_row (s o : FrameBuffer) (w h : ℤ) (t2 : ℚ) (b : Bool)
    (y : ℕ) (z : (ℕ × ℕ) × Pixel) :
    z ∈ diff_row s o w h t2 b y ↔
      ((y : ℤ) < h ∨ b = true) ∧
      ∃ x, x < max (s.getD y []).length (o.getD y []).length ∧
        z ∈ diff_cell (s.getD y []) (o.getD y []) y w t2 b x := by
  unfold diff_row
  cases b with
  | false =>
    by_cases hy : (y : ℤ) < h
    · rw [if_neg (by simp [not_le.mpr hy])]
      simp only [List.mem_flatten, List.mem_map, List.mem_range]
      constructor
      · rintro ⟨l, ⟨x, hx, rfl⟩, hz⟩
        exact ⟨Or.inl hy, x, hx, hz⟩
      · rintro ⟨-, x, hx, hz⟩
        exact ⟨_, ⟨x, hx, rfl⟩, hz⟩
    · rw [if_pos (by simp [not_lt.mp hy])]
      simp [hy]
  | true =>
    rw [if_neg (by simp)]
    simp only [List.mem_flatten, List.mem_map, List.mem_range]
    constructor
    · rintro ⟨l, ⟨x, hx, rfl⟩, hz⟩
      exact ⟨Or.inr (by trivial), x, hx, hz⟩
    · rintro ⟨-, x, hx, hz⟩
      exact ⟨_, ⟨x, hx, rfl⟩, hz⟩

/-- Full characterization of membership in the update list: `((x, y), p)` is
emitted iff `(x, y)` lies in the union extent of the two buffers, survives the
viewport clipping (unless `render_outside_bounds`), `needs_update` holds for
the two guarded pixel fetches, and `p` is the current frame's pixel there if
present, otherwise the synthetic blank. -/
theorem mem_compute_diff_buffer (s o : FrameBuffer) (w h : ℤ) (t : ℚ)
    (b : Bool) (x y : ℕ) (p : Pixel) :
    ((x, y), p) ∈ compute_diff_buffer s o w h t b ↔
      y < max s.length o.length ∧
      ((y : ℤ) < h ∨ b = true) ∧
      x < max (s.getD y []).length (o.getD y []).length ∧
      ((x : ℤ) < w ∨ b = true) ∧
      needs_update_at (pixel_at s x y) (pixel_at o x y) (t * t) = true ∧
      p = (pixel_at s x y).getD (blank_pixel x y) := by
  unfold compute_diff_buffer
  simp only [List.mem_flatten, List.mem_map, List.mem_range]
  constructor
  · rintro ⟨l, ⟨y', hy', rfl⟩, hz⟩
    rw [mem_diff_row] at hz
    obtain ⟨hyb, x', hx', hcell⟩ := hz
    rw [mem_diff_cell] at hcell
    obtain ⟨hxb, hneed, heq⟩ := hcell
    have hx : x = x' := congrArg (fun q => q.1.1) heq
    have hy : y = y' := congrArg (fun q => q.1.2) heq
    subst hx; subst hy
    have hp : p = (pixel_at s x y).getD (blank_pixel x y) :=
      congrArg (fun q => q.2) heq
    exact ⟨hy', hyb, hx', hxb, hneed, hp⟩
  · rintro ⟨hy, hyb, hx, hxb, hneed, rfl⟩
    refine ⟨diff_row s o w h (t * t) b y, ⟨y, hy, rfl⟩, ?_⟩
    rw [mem_diff_row]
    refine ⟨hyb, x, hx, ?_⟩
    rw [mem_diff_cell]
    exact ⟨hxb, hneed, rfl⟩

-- Basic facts about the pieces of the routine.

theorem distance_squared_self (c : Color) : distance_squared c c = 0 := by
  simp [distance_squared]

theorem distance_squared_comm (c1 c2 : Color) :
    distance_squared c1 c2 = distance_squared c2 c1 := by
  unfold distance_squared
  ring

/-- `List.getD` yields the default beyond the list's length. -/
theorem getD_of_length_le {α : Type} (l : List α) (n : ℕ) (d : α)
    (h : l.length ≤ n) : l.getD n d = d := by
  rw [List.getD_eq_getElem?_getD, List.getElem?_eq_none h]
  rfl

/-- A pixel compared against itself never needs an update, as long as the
squared tolerance is positive. -/
theorem needs_update_at_refl (p : Option Pixel) (t2 : ℚ) (ht : 0 < t2) :
    needs_update_at p p t2 = false := by
  cases p with
  | none => rfl
  | some q =>
    simp only [needs_update_at]
    rw [if_neg (by simp)]
    rw [distance_squared_self]
    exact decide_eq_false (not_le.mpr ht)

/-- The `needs_update` decision is symmetric in the two pixels. -/
theorem needs_update_at_symm (a b : Option Pixel) (t2 : ℚ) :
    needs_update_at a b t2 = needs_update_at b a t2 := by
  cases a with
  | none => cases b <;> rfl
  | some p =>
    cases b with
    | none => rfl
    | some q =>
      simp only [needs_update_at]
      rw [distance_squared_comm]
      by_cases hc : p.char = q.char
      · rw [if_neg (by simp [hc]), if_neg (by simp [hc.symm])]
      · rw [if_pos (by simp [hc]), if_pos (by exact fun h => hc h.symm)]

/-- A present pixel at `(x, y)` forces `(x, y)` to lie inside the buffer's
extent: `y` below the row count and `x` below that row's length. -/
theorem pixel_at_isSome_bounds (buf : FrameBuffer) (x y : ℕ) (p : Pixel)
    (hp : pixel_at buf x y = some p) :
    y < buf.length ∧ x < (buf.getD y []).length := by
  constructor
  · by_contra hy
    rw [not_lt] at hy
    rw [pixel_at, getD_of_length_le buf y [] hy] at hp
    simp at hp
  · by_contra hx
    rw [not_lt] at hx
    rw [pixel_at, getD_of_length_le (buf.getD y []) x none hx] at hp
    exact Option.noConfusion hp

/-- Beyond the buffer's row count, or beyond the row's length, the guarded
fetch yields an absent cell. -/
theorem pixel_at_out_of_range (buf : FrameBuffer) (x y : ℕ)
    (hout : buf.length ≤ y ∨ (buf.getD y []).length ≤ x) :
    pixel_at buf x y = none := by
  rcases hout with hy | hx
  · rw [pixel_at, getD_of_length_le buf y [] hy]
    rfl
  · rw [pixel_at, getD_of_length_le (buf.getD y []) x none hx]

-- Row-major ordering of the output.

/-- Strict row-major order on positions: smaller row first, then, within a
row, smaller column. -/
def row_major_lt (a b : ℕ × ℕ) : Prop :=
  a.2 < b.2 ∨ (a.2 = b.2 ∧ a.1 < b.1)

theorem row_major_lt_ne (a b : ℕ × ℕ) (h : row_major_lt a b) : a ≠ b := by
  rcases h with h | ⟨-, h⟩ <;> intro he <;> rw [he] at h <;> exact Nat.lt_irrefl _ h

/-- The per-cell output is empty or the single entry at `(x, y)`. -/
theorem diff_cell_nil_or_singleton (sr tr : Row) (y : ℕ) (w : ℤ) (t2 : ℚ)
    (b : Bool) (x : ℕ) :
    diff_cell sr tr y w t2 b x = [] ∨
      diff_cell sr tr y w t2 b x =
        [((x, y), (sr.getD x none).getD (blank_pixel x y))] := by
  unfold diff_cell
  split
  · exact Or.inl rfl
  · dsimp only
    split
    · exact Or.inr rfl
    · exact Or.inl rfl

theorem fst_of_mem_diff_cell (sr tr : Row) (y : ℕ) (w : ℤ) (t2 : ℚ) (b : Bool)
    (x : ℕ) (z : (ℕ × ℕ) × Pixel) (hz : z ∈ diff_cell sr tr y w t2 b x) :
    z.1 = (x, y) := by
  have h := ((mem_diff_cell sr tr y w t2 b x z).mp hz).2.2
  rw [h]

theorem snd_fst_of_mem_diff_row (s o : FrameBuffer) (w h : ℤ) (t2 : ℚ)
    (b : Bool) (y : ℕ) (z : (ℕ × ℕ) × Pixel) (hz : z ∈ diff_row s o w h t2 b y) :
    z.1.2 = y := by
  obtain ⟨-, x, -, hcell⟩ := (mem_diff_row s o w h t2 b y z).mp hz
  rw [fst_of_mem_diff_cell _ _ _ _ _ _ _ _ hcell]

/-- The update list is strictly increasing in row-major order. -/
theorem pairwise_compute_diff_buffer (s o : FrameBuffer) (w h : ℤ) (t : ℚ)
    (b : Bool) :
    (compute_diff_buffer s o w h t b).Pairwise
      (fun e1 e2 => row_major_lt e1.1 e2.1) := by
  unfold compute_diff_buffer
  rw [List.pairwise_flatten]
  constructor
  · intro l hl
    rw [List.mem_map] at hl
    obtain ⟨y, -, rfl⟩ := hl
    unfold diff_row
    split
    · exact List.Pairwise.nil
    · rw [List.pairwise_flatten]
      constructor
      · intro l' hl'
        rw [List.mem_map] at hl'
        obtain ⟨x, -, rfl⟩ := hl'
        rcases diff_cell_nil_or_singleton (s.getD y []) (o.getD y []) y w
            (t * t) b x with hnil | hsing
        · rw [hnil]; exact List.Pairwise.nil
        · rw [hsing]; exact List.pairwise_singleton _ _
      · rw [List.pairwise_map]
        refine List.Pairwise.imp ?_ (List.pairwise_lt_range _)
        intro x1 x2 h12 z1 hz1 z2 hz2
        have e1 := fst_of_mem_diff_cell _ _ _ _ _ _ _ _ hz1
        have e2 := fst_of_mem_diff_cell _ _ _ _ _ _ _ _ hz2
        unfold row_major_lt
        rw [e1, e2]
        exact Or.inr ⟨rfl, h12⟩
  · rw [List.pairwise_map]
    refine List.Pairwise.imp ?_ (List.pairwise_lt_range _)
    intro y1 y2 h12 z1 hz1 z2 hz2
    have e1 := snd_fst_of_mem_diff_row _ _ _ _ _ _ _ _ hz1
    have e2 := snd_fst_of_mem_diff_row _ _ _ _ _ _ _ _ hz2
    unfold row_major_lt
    rw [e1, e2]
    exact Or.inl h12

-- Concrete cells and buffers used by the claims' scenarios.

/-- A cell with character 'a', used in the jagged-safety scenario. -/
def cellA : Pixel := { char := 'a', color := { r := 1, g := 1, b := 1 }, pos := { x := 0, y := 0 } }

/-- A cell with character 'b', used in the jagged-safety scenario. -/
def cellB : Pixel := { char := 'b', color := { r := 1, g := 1, b := 1 }, pos := { x := 0, y := 0 } }

/-- The out-of-viewport cell of the bounds-clipping scenario. -/
def far_pixel : Pixel := { char := 'X', color := { r := 1, g := 1, b := 1 }, pos := { x := 10, y := 10 } }

/-- A frame whose only present cell sits at position (10, 10). -/
def far_buffer : FrameBuffer :=
  List.replicate 10 [] ++ [List.replicate 10 none ++ [some far_pixel]]

/-- Jagged buffer with row lengths [3, 0, 5]. -/
def jaggedA : FrameBuffer :=
  [List.replicate 3 (some cellA), [], List.replicate 5 (some cellA)]

/-- Buffer with a single row of length 5. -/
def jaggedB : FrameBuffer := [List.replicate 5 (some cellB)]

-- Claim theorems.

/-- C2 counterexample: called with negative viewport dimensions the routine
does not fail: it silently returns a (here empty) update list. -/
theorem negative_viewport_silent_counterexample :
    compute_diff_buffer [[some redP]] [] (-1) (-1) (5/100) false = [] := by
  decide

/-- C2 amended: `compute_diff_buffer` performs no argument validation; with
`render_outside_bounds = false`, a negative `term_width` or `term_height`
makes every scan position skip its guard, so the routine silently returns the
empty update list instead of raising an invalid-argument error. -/
theorem negative_viewport_returns_empty (s o : FrameBuffer) (w h : ℤ) (t : ℚ)
    (hneg : w < 0 ∨ h < 0) :
    compute_diff_buffer s o w h t false = [] := by
  rw [List.eq_nil_iff_forall_not_mem]
  intro z hz
  obtain ⟨⟨x, y⟩, p⟩ := z
  rw [mem_compute_diff_buffer] at hz
  obtain ⟨-, hyb, -, hxb, -, -⟩ := hz
  rcases hneg with hw | hh
  · rcases hxb with hxlt | hb
    · omega
    · exact Bool.noConfusion hb
  · rcases hyb with hylt | hb
    · omega
    · exact Bool.noConfusion hb

/-- C2 witness for the amended claim, at a concrete negative viewport. -/
theorem negative_viewport_returns_empty_witness :
    ((-1 : ℤ) < 0 ∨ (-1 : ℤ) < 0) ∧
      compute_diff_buffer [[some redP]] [] (-1) (-1) (5/100) false = [] :=
  ⟨Or.inl (by decide),
    negative_viewport_returns_empty [[some redP]] [] (-1) (-1) (5/100)
      (Or.inl (by decide))⟩

/-- C3: identity — diffing any frame against itself at the code's default
tolerance 0.05 yields the empty update list, for any non-negative viewport. -/
theorem diff_self_eq_nil (F : FrameBuffer) (w h : ℤ) (hw : 0 ≤ w)
    (hh : 0 ≤ h) :
    compute_diff_buffer F F w h (5/100) false = [] := by
  rw [List.eq_nil_iff_forall_not_mem]
  intro z hz
  obtain ⟨⟨x, y⟩, p⟩ := z
  rw [mem_compute_diff_buffer] at hz
  obtain ⟨-, -, -, -, hneed, -⟩ := hz
  rw [needs_update_at_refl _ _ (by norm_num)] at hneed
  exact Bool.noConfusion hneed

/-- C3 witness at a concrete frame and the 80×24 viewport. -/
theorem diff_self_eq_nil_witness :
    (0 : ℤ) ≤ 80 ∧ (0 : ℤ) ≤ 24 ∧
      compute_diff_buffer [[some redP]] [[some redP]] 80 24 (5/100) false = [] :=
  ⟨by decide, by decide,
    diff_self_eq_nil [[some redP]] 80 24 (by decide) (by decide)⟩

/-- C6: the update list is strictly increasing in row-major order (increasing
y, then increasing x), hence holds at most one entry per position, and two
calls on identical inputs return identical lists. -/
theorem diff_row_major_sorted (s o : FrameBuffer) (w h : ℤ) (t : ℚ)
    (b : Bool) :
    (compute_diff_buffer s o w h t b).Pairwise
        (fun e1 e2 => row_major_lt e1.1 e2.1) ∧
      ((compute_diff_buffer s o w h t b).map Prod.fst).Nodup ∧
      compute_diff_buffer s o w h t b = compute_diff_buffer s o w h t b := by
  refine ⟨pairwise_compute_diff_buffer s o w h t b, ?_, rfl⟩
  show ((compute_diff_buffer s o w h t b).map Prod.fst).Pairwise (· ≠ ·)
  rw [List.pairwise_map]
  exact (pairwise_compute_diff_buffer s o w h t b).imp
    (fun hab => row_major_lt_ne _ _ hab)

/-- One direction of detection symmetry: an update position of diff(A, B) is
an update position of diff(B, A). -/
theorem exists_update_symm_aux (A B : FrameBuffer) (w h : ℤ) (t : ℚ)
    (b : Bool) (x y : ℕ)
    (hex : ∃ p, ((x, y), p) ∈ compute_diff_buffer A B w h t b) :
    ∃ q, ((x, y), q) ∈ compute_diff_buffer B A w h t b := by
  obtain ⟨p, hp⟩ := hex
  refine ⟨(pixel_at B x y).getD (blank_pixel x y), ?_⟩
  rw [mem_compute_diff_buffer] at hp ⊢
  obtain ⟨h1, h2, h3, h4, h5, -⟩ := hp
  refine ⟨?_, h2, ?_, h4, ?_, rfl⟩
  · rw [Nat.max_comm]; exact h1
  · rw [Nat.max_comm]; exact h3
  · rw [needs_update_at_symm]; exact h5

/-- C7: symmetry of detection — diff(A, B) and diff(B, A) with the same
remaining parameters flag updates at exactly the same set of positions. -/
theorem diff_position_symmetric (A B : FrameBuffer) (w h : ℤ) (t : ℚ)
    (b : Bool) (x y : ℕ) :
    (∃ p, ((x, y), p) ∈ compute_diff_buffer A B w h t b) ↔
      (∃ q, ((x, y), q) ∈ compute_diff_buffer B A w h t b) :=
  ⟨exists_update_symm_aux A B w h t b x y, exists_update_symm_aux B A w h t b x y⟩

/-- The squared RGB distance is a sum of squares, hence non-negative. -/
theorem distance_squared_nonneg (c1 c2 : Color) :
    0 ≤ distance_squared c1 c2 := by
  unfold distance_squared
  positivity

/-- At tolerance 0, any scanned position where both buffers hold present
cells with equal characters is reported as changed, carrying the current
frame's cell, whatever the two colors are. -/
theorem zero_tolerance_mem (s o : FrameBuffer) (w h : ℤ) (b : Bool)
    (x y : ℕ) (sp op : Pixel)
    (hs : pixel_at s x y = some sp) (ho : pixel_at o x y = some op)
    (hc : sp.char = op.char)
    (hx : (x : ℤ) < w ∨ b = true) (hy : (y : ℤ) < h ∨ b = true) :
    ((x, y), sp) ∈ compute_diff_buffer s o w h 0 b := by
  have hsb := pixel_at_isSome_bounds s x y sp hs
  have hneed : needs_update_at (pixel_at s x y) (pixel_at o x y)
      ((0 : ℚ) * 0) = true := by
    rw [hs, ho]
    simp only [needs_update_at]
    rw [if_neg (by simp [hc])]
    exact decide_eq_true (by rw [mul_zero]; exact distance_squared_nonneg _ _)
  rw [mem_compute_diff_buffer]
  exact ⟨lt_of_lt_of_le hsb.1 (le_max_left _ _), hy,
    lt_of_lt_of_le hsb.2 (le_max_left _ _), hx, hneed, by rw [hs]; rfl⟩

/-- C9: at tolerance exactly 0, every scanned position where both buffers
hold present cells with equal characters is reported as changed — even when
the two colors are identical, since squared distance 0 meets the ≥ 0
threshold; consequently the self-diff at tolerance 0 is non-empty for any
frame with a present in-bounds cell. -/
theorem zero_tolerance_reports_identical (s o : FrameBuffer) (w h : ℤ)
    (b : Bool) (x y : ℕ) (sp op : Pixel)
    (hs : pixel_at s x y = some sp) (ho : pixel_at o x y = some op)
    (hc : sp.char = op.char)
    (hx : (x : ℤ) < w ∨ b = true) (hy : (y : ℤ) < h ∨ b = true) :
    ((x, y), sp) ∈ compute_diff_buffer s o w h 0 b ∧
      (∀ (F : FrameBuffer) (w2 h2 : ℤ) (x2 y2 : ℕ) (q : Pixel),
        pixel_at F x2 y2 = some q → (x2 : ℤ) < w2 → (y2 : ℤ) < h2 →
        compute_diff_buffer F F w2 h2 0 false ≠ []) := by
  refine ⟨zero_tolerance_mem s o w h b x y sp op hs ho hc hx hy, ?_⟩
  intro F w2 h2 x2 y2 q hq hx2 hy2 hnil
  have hmem := zero_tolerance_mem F F w2 h2 false x2 y2 q q hq hq rfl
    (Or.inl hx2) (Or.inl hy2)
  rw [hnil] at hmem
  exact List.not_mem_nil _ hmem

/-- C9 witness at a concrete pair of distinct one-cell frames sharing a
character. -/
theorem zero_tolerance_reports_identical_witness :
    pixel_at [[some redP]] 0 0 = some redP ∧
      pixel_at [[some blueP]] 0 0 = some blueP ∧
      redP.char = blueP.char ∧
      ((0 : ℤ) < 80 ∨ false = true) ∧ ((0 : ℤ) < 24 ∨ false = true) ∧
      (((0, 0), redP) ∈
          compute_diff_buffer [[some redP]] [[some blueP]] 80 24 0 false ∧
        (∀ (F : FrameBuffer) (w2 h2 : ℤ) (x2 y2 : ℕ) (q : Pixel),
          pixel_at F x2 y2 = some q → (x2 : ℤ) < w2 → (y2 : ℤ) < h2 →
          compute_diff_buffer F F w2 h2 0 false ≠ [])) :=
  ⟨rfl, rfl, rfl, Or.inl (by decide), Or.inl (by decide),
    zero_tolerance_reports_identical [[some redP]] [[some blueP]] 80 24 false
      0 0 redP blueP rfl rfl rfl (Or.inl (by decide)) (Or.inl (by decide))⟩

/-- C10: the tolerance enters only through its square, so a negative
tolerance is silently accepted and the result coincides with that of its
absolute value. -/
theorem negative_tolerance_behaves_as_abs (s o : FrameBuffer) (w h : ℤ)
    (t : ℚ) (b : Bool) (ht : t < 0) :
    compute_diff_buffer s o w h t b = compute_diff_buffer s o w h (-t) b := by
  unfold compute_diff_buffer
  rw [neg_mul_neg]

/-- C10 witness at tolerance −0.05. -/
theorem negative_tolerance_behaves_as_abs_witness :
    (-(5/100) : ℚ) < 0 ∧
      compute_diff_buffer [[some blueP]] [[some redP]] 80 24 (-(5/100)) false =
        compute_diff_buffer [[some blueP]] [[some redP]] 80 24 (-(-(5/100))) false :=
  ⟨by norm_num,
    negative_tolerance_behaves_as_abs [[some blueP]] [[some redP]] 80 24
      (-(5/100)) false (by norm_num)⟩

/-- C1: every emitted entry's payload is the current frame's cell at that
position when present, otherwise the synthetic blank (space, RGB black)
positioned at (x, y); in particular the spec's two concrete scenarios hold:
('A', red) → ('A', blue) at tolerance 0.05 under an 80×24 viewport yields
exactly [((0,0), ('A', blue))], and ('A', red) → removed row yields exactly
[((0,0), (' ', black))]. -/
theorem update_payload_current_or_blank (s o : FrameBuffer) (w h : ℤ)
    (t : ℚ) (b : Bool) (x y : ℕ) (p : Pixel)
    (hmem : ((x, y), p) ∈ compute_diff_buffer s o w h t b) :
    p = (pixel_at s x y).getD (blank_pixel x y) ∧
      compute_diff_buffer [[some blueP]] [[some redP]] 80 24 (5/100) false =
        [((0, 0), blueP)] ∧
      compute_diff_buffer [] [[some redP]] 80 24 (5/100) false =
        [((0, 0), blank_pixel 0 0)] := by
  refine ⟨((mem_compute_diff_buffer s o w h t b x y p).mp hmem).2.2.2.2.2,
    ?_, ?_⟩
  · have hd : needs_update_at (some blueP) (some redP)
        ((5/100 : ℚ) * (5/100)) = true := by
      simp only [needs_update_at, blueP, redP]
      rw [if_neg (by simp), decide_eq_true_eq]
      norm_num [distance_squared]
    simp [compute_diff_buffer, diff_row, diff_cell, List.range_succ, hd]
  · decide

/-- C1 witness at a concrete appearing cell. -/
theorem update_payload_current_or_blank_witness :
    (((0, 0), blueP) ∈
        compute_diff_buffer [[some blueP]] [] 80 24 (5/100) false) ∧
      (blueP = (pixel_at [[some blueP]] 0 0).getD (blank_pixel 0 0) ∧
        compute_diff_buffer [[some blueP]] [[some redP]] 80 24 (5/100) false =
          [((0, 0), blueP)] ∧
        compute_diff_buffer [] [[some redP]] 80 24 (5/100) false =
          [((0, 0), blank_pixel 0 0)]) :=
  ⟨by decide,
    update_payload_current_or_blank [[some blueP]] [] 80 24 (5/100) false 0 0
      blueP (by decide)⟩

/-- C4: for cells present in both buffers at the same scanned position with
equal characters, an update is produced exactly when the squared RGB distance
between their colors reaches the squared tolerance — so a distance exactly
equal to the tolerance counts as changed, and a strictly smaller one
produces no update. -/
theorem update_iff_distance_reaches_tolerance (s o : FrameBuffer) (w h : ℤ)
    (t : ℚ) (b : Bool) (x y : ℕ) (sp op : Pixel)
    (hs : pixel_at s x y = some sp) (ho : pixel_at o x y = some op)
    (hc : sp.char = op.char)
    (hx : (x : ℤ) < w ∨ b = true) (hy : (y : ℤ) < h ∨ b = true) :
    (∃ p, ((x, y), p) ∈ compute_diff_buffer s o w h t b) ↔
      t * t ≤ distance_squared sp.color op.color := by
  have hsb := pixel_at_isSome_bounds s x y sp hs
  constructor
  · rintro ⟨p, hp⟩
    rw [mem_compute_diff_buffer] at hp
    obtain ⟨-, -, -, -, hneed, -⟩ := hp
    rw [hs, ho] at hneed
    simp only [needs_update_at] at hneed
    rw [if_neg (by simp [hc])] at hneed
    exact of_decide_eq_true hneed
  · intro hdist
    refine ⟨(pixel_at s x y).getD (blank_pixel x y), ?_⟩
    rw [mem_compute_diff_buffer]
    refine ⟨lt_of_lt_of_le hsb.1 (le_max_left _ _), hy,
      lt_of_lt_of_le hsb.2 (le_max_left _ _), hx, ?_, rfl⟩
    rw [hs, ho]
    simp only [needs_update_at]
    rw [if_neg (by simp [hc])]
    exact decide_eq_true hdist

/-- C4 witness at a concrete both-present pair. -/
theorem update_iff_distance_reaches_tolerance_witness :
    pixel_at [[some cellA]] 0 0 = some cellA ∧ cellA.char = cellA.char ∧
      ((∃ p, ((0, 0), p) ∈
          compute_diff_buffer [[some cellA]] [[some cellA]] 80 24 0 false) ↔
        (0 : ℚ) * 0 ≤ distance_squared cellA.color cellA.color) :=
  ⟨rfl, rfl,
    update_iff_distance_reaches_tolerance [[some cellA]] [[some cellA]] 80 24
      0 false 0 0 cellA cellA rfl rfl rfl (Or.inl (by decide))
      (Or.inl (by decide))⟩

/-- C5: with `render_outside_bounds = false` every emitted entry lies
strictly inside the viewport; the scenario frame with content at (10, 10)
yields no entry there under a 5×5 viewport but does once the flag is true;
and with the flag true, membership depends only on the union extent of the
buffers and the update decision, never on the viewport. -/
theorem clipping_respects_viewport (s o : FrameBuffer) (w h : ℤ) (t : ℚ)
    (x y : ℕ) (p : Pixel)
    (hmem : ((x, y), p) ∈ compute_diff_buffer s o w h t false) :
    ((x : ℤ) < w ∧ (y : ℤ) < h) ∧
      (¬ ∃ q, ((10, 10), q) ∈
          compute_diff_buffer far_buffer [] 5 5 (5/100) false) ∧
      (∃ q, ((10, 10), q) ∈
          compute_diff_buffer far_buffer [] 5 5 (5/100) true) ∧
      (∀ (s2 o2 : FrameBuffer) (w2 h2 : ℤ) (t2 : ℚ) (x2 y2 : ℕ) (p2 : Pixel),
        ((x2, y2), p2) ∈ compute_diff_buffer s2 o2 w2 h2 t2 true ↔
          y2 < max s2.length o2.length ∧
          x2 < max (s2.getD y2 []).length (o2.getD y2 []).length ∧
          needs_update_at (pixel_at s2 x2 y2) (pixel_at o2 x2 y2)
            (t2 * t2) = true ∧
          p2 = (pixel_at s2 x2 y2).getD (blank_pixel x2 y2)) := by
  refine ⟨?_, ?_, ?_, ?_⟩
  · obtain ⟨-, hyb, -, hxb, -, -⟩ :=
      (mem_compute_diff_buffer s o w h t false x y p).mp hmem
    constructor
    · rcases hxb with hxlt | hb
      · exact hxlt
      · exact Bool.noConfusion hb
    · rcases hyb with hylt | hb
      · exact hylt
      · exact Bool.noConfusion hb
  · rintro ⟨q, hq⟩
    obtain ⟨-, -, -, hxb, -, -⟩ :=
      (mem_compute_diff_buffer far_buffer [] 5 5 (5/100) false 10 10 q).mp hq
    rcases hxb with hxlt | hb
    · omega
    · exact Bool.noConfusion hb
  · exact ⟨far_pixel, by decide⟩
  · intro s2 o2 w2 h2 t2 x2 y2 p2
    rw [mem_compute_diff_buffer]
    simp

/-- C5 witness at a concrete in-viewport entry. -/
theorem clipping_respects_viewport_witness :
    (((0, 0), blueP) ∈
        compute_diff_buffer [[some blueP]] [] 80 24 (5/100) false) ∧
      (((0 : ℤ) < 80 ∧ (0 : ℤ) < 24) ∧
        (¬ ∃ q, ((10, 10), q) ∈
            compute_diff_buffer far_buffer [] 5 5 (5/100) false) ∧
        (∃ q, ((10, 10), q) ∈
            compute_diff_buffer far_buffer [] 5 5 (5/100) true) ∧
        (∀ (s2 o2 : FrameBuffer) (w2 h2 : ℤ) (t2 : ℚ) (x2 y2 : ℕ)
            (p2 : Pixel),
          ((x2, y2), p2) ∈ compute_diff_buffer s2 o2 w2 h2 t2 true ↔
            y2 < max s2.length o2.length ∧
            x2 < max (s2.getD y2 []).length (o2.getD y2 []).length ∧
            needs_update_at (pixel_at s2 x2 y2) (pixel_at o2 x2 y2)
              (t2 * t2) = true ∧
            p2 = (pixel_at s2 x2 y2).getD (blank_pixel x2 y2))) :=
  ⟨by decide,
    clipping_respects_viewport [[some blueP]] [] 80 24 (5/100) 0 0 blueP
      (by decide)⟩

/-- C8: shape irregularities are not errors: a position beyond a row's
length or beyond the buffer's row count is an absent cell, and the jagged
diff of row lengths [3, 0, 5] against [5] completes, returning an explicit
update list with all out-of-range cells treated as absent. -/
theorem jagged_diff_total (buf : FrameBuffer) (x y : ℕ)
    (hout : buf.length ≤ y ∨ (buf.getD y []).length ≤ x) :
    pixel_at buf x y = none ∧
      compute_diff_buffer jaggedA jaggedB 80 24 (5/100) false =
        [((0, 0), cellA), ((1, 0), cellA), ((2, 0), cellA),
         ((3, 0), blank_pixel 3 0), ((4, 0), blank_pixel 4 0),
         ((0, 2), cellA), ((1, 2), cellA), ((2, 2), cellA),
         ((3, 2), cellA), ((4, 2), cellA)] :=
  ⟨pixel_at_out_of_range buf x y hout, by decide⟩

/-- C8 witness at a concrete out-of-range access. -/
theorem jagged_diff_total_witness :
    (([[]] : FrameBuffer).length ≤ 5 ∨
        (([[]] : FrameBuffer).getD 5 []).length ≤ 0) ∧
      (pixel_at [[]] 0 5 = none ∧
        compute_diff_buffer jaggedA jaggedB 80 24 (5/100) false =
          [((0, 0), cellA), ((1, 0), cellA), ((2, 0), cellA),
           ((3, 0), blank_pixel 3 0), ((4, 0), blank_pixel 4 0),
           ((0, 2), cellA), ((1, 2), cellA), ((2, 2), cellA),
           ((3, 2), cellA), ((4, 2), cellA)]) :=
  ⟨Or.inl (by decide), jagged_diff_total [[]] 0 5 (Or.inl (by decide))⟩
